import Mathlib

/-!
A verification development for the tunable-parameter registry of the
Clarity engine (src/tunables.cpp).  The registry is a fixed ordered list
of `Tunable` records; the operations are the option-line report
(`outputTunables`), the JSON snapshot (`outputTunableJSON`), the update
entry point (`adjustTunable`, which may trigger `calculateReductions`),
and the read entry points (`readTunable`, `readTunables`).

Real-valued fields (`value`, `divisor`, C++ `double`) are modelled as
rationals; C++ `static_cast<int>` on a real value is truncation toward
zero, modelled by `trunc`.  Output to `std::cout` is modelled as the list
of lines written; the call to `calculateReductions` is modelled by
counting how many times it is invoked.
-/

namespace Clarity

/-- Modelled from the spec: the `Tunable` entity lives in `globals.h`,
which is not part of the sources; its fields follow spec section 3
(`name`, `value`, `divisor`, `max`, `step`).  `value` and `divisor` are
C++ doubles, modelled as rationals; `max` and `step` are the declared
bounds/step metadata. -/
structure Tunable where
  name : String
  value : ℚ
  divisor : ℚ
  max : ℤ
  step : ℤ
deriving DecidableEq

/-- Modelled from the spec: the `Tunable` constructor is in `globals.h`,
not in the sources.  The spec's section 8 scenario ("LMR_Base" built from
`0.80` with divisor `100` has internal value `0.8` and external default
`80`) fixes that the second constructor argument is stored directly as
the internal `value`.  `max` and `step` are declared metadata supplied
separately; their concrete values are not in the sources, so the
registry below is parameterised by them. -/
def Tunable.construct (name : String) (value divisor : ℚ) (max step : ℤ) : Tunable :=
  ⟨name, value, divisor, max, step⟩

/-- Truncation toward zero on rationals: the behaviour of C++
`static_cast<int>` applied to a `double`. -/
def trunc (q : ℚ) : ℤ :=
  q.num.tdiv (q.den : ℤ)

/-- The externally-scaled integer of a tunable:
`static_cast<int>(tunable->value * tunable->divisor)` as computed in
`outputTunables` and `outputTunableJSON`. -/
def Tunable.extValue (t : Tunable) : ℤ :=
  trunc (t.value * t.divisor)

/-- Modelled from the spec: `Tunable::updateValue` is in `globals.h`,
not in the sources; spec section 4.1 (`updateFromExternal`) says it sets
`value = newExternalInt / divisor`, with no bounds check. -/
def Tunable.updateValue (t : Tunable) (v : ℤ) : Tunable :=
  { t with value := (v : ℚ) / t.divisor }

/-- The global registry `std::vector<Tunable *> tunables`, in source
order.  The `name`, `value` and `divisor` constructor arguments are the
literals of `tunables.cpp`; `mx i` and `st i` stand for the (unknown,
declared elsewhere) `max` and `step` metadata of the `i`-th tunable. -/
def tunables (mx st : ℕ → ℤ) : List Tunable :=
  [Tunable.construct "ASP_BaseDelta" 20 1 (mx 0) (st 0),
   Tunable.construct "ASP_DeltaMultiplier" 1.8 10 (mx 1) (st 1),
   Tunable.construct "ASP_DepthCondition" 4 1 (mx 2) (st 2),
   Tunable.construct "RFP_DepthCondition" 11 1 (mx 3) (st 3),
   Tunable.construct "RFP_Multiplier" 84 1 (mx 4) (st 4),
   Tunable.construct "IIR_DepthCondition" 5 1 (mx 5) (st 5),
   Tunable.construct "FP_DepthCondition" 3 1 (mx 6) (st 6),
   Tunable.construct "FP_Base" 278 1 (mx 7) (st 7),
   Tunable.construct "FP_Multiplier" 67 1 (mx 8) (st 8),
   Tunable.construct "LMP_DepthCondition" 8 1 (mx 9) (st 9),
   Tunable.construct "LMP_Base" 0 1 (mx 10) (st 10),
   Tunable.construct "SPR_DepthCondition" 3 1 (mx 11) (st 11),
   Tunable.construct "SPR_CaptureThreshold" (-108) (-1) (mx 12) (st 12),
   Tunable.construct "SPR_QuietThreshold" (-32) (-1) (mx 13) (st 13),
   Tunable.construct "NMP_Divisor" 196 1 (mx 14) (st 14),
   Tunable.construct "NMP_Subtractor" 3 1 (mx 15) (st 15),
   Tunable.construct "NMP_DepthCondition" 2 1 (mx 16) (st 16),
   Tunable.construct "HMR_Divisor" 8074 1 (mx 17) (st 17),
   Tunable.construct "CMR_Divisor" 3000 1 (mx 18) (st 18),
   Tunable.construct "LMR_Base" 0.80 100 (mx 19) (st 19),
   Tunable.construct "LMR_Multiplier" 0.56 100 (mx 20) (st 20),
   Tunable.construct "HST_MaxBonus" 1892 1 (mx 21) (st 21),
   Tunable.construct "HST_Multiplier" 4 1 (mx 22) (st 22),
   Tunable.construct "HST_Adder" 121 1 (mx 23) (st 23),
   Tunable.construct "HST_Subtractor" 120 1 (mx 24) (st 24),
   Tunable.construct "SIN_DepthCondition" 8 1 (mx 25) (st 25),
   Tunable.construct "SIN_DepthMargin" 3 1 (mx 26) (st 26),
   Tunable.construct "SIN_DepthScale" 24 1 (mx 27) (st 27),
   Tunable.construct "RAZ_DepthMultiplier" 395 1 (mx 28) (st 28),
   Tunable.construct "NTM_DepthCondition" 8 1 (mx 29) (st 29),
   Tunable.construct "NTM_Subtractor" 1.53 100 (mx 30) (st 30),
   Tunable.construct "NTM_Multiplier" 1.39 100 (mx 31) (st 31),
   Tunable.construct "NTM_Default" 0.98 100 (mx 32) (st 32),
   Tunable.construct "HIP_DepthCondition" 4 1 (mx 33) (st 33),
   Tunable.construct "HIP_DepthMultiplier" (-1536) (-1) (mx 34) (st 34)]

/-- The one line that `outputTunables` writes for a tunable, token for
token as the C++ streams it: `"option name " << name
<< " type spin default " << to_string(int(value * divisor))
<< " min " << "0" << " max " << max`. -/
def optionLine (t : Tunable) : String :=
  "option name " ++ t.name ++ " type spin default " ++ toString t.extValue
    ++ " min " ++ "0" ++ " max " ++ toString t.max

/-- Operation `outputTunables()`: one option line per tunable, in registry order. -/
def outputTunables (ts : List Tunable) : List String :=
  ts.map optionLine

/-- The data of one option-declaration line: the parameter name, the
externally-scaled default, and the declared maximum (the minimum is the
literal `0`). -/
structure OptionEntry where
  name : String
  defaultValue : ℤ
  max : ℤ
deriving DecidableEq

/-- The entry that an option line advertises for a tunable. -/
def optionEntry (t : Tunable) : OptionEntry :=
  ⟨t.name, t.extValue, t.max⟩

/-- Rendering an `OptionEntry` back to its protocol line. -/
def renderOptionEntry (e : OptionEntry) : String :=
  "option name " ++ e.name ++ " type spin default " ++ toString e.defaultValue
    ++ " min " ++ "0" ++ " max " ++ toString e.max

/-- The entries of the options report, in registry order. -/
def optionEntries (ts : List Tunable) : List OptionEntry :=
  ts.map optionEntry

/-- The data of one JSON-snapshot entry, fields in output order. -/
structure JsonEntry where
  key : String
  value : ℤ
  min_value : ℤ
  max_value : ℤ
  step : ℤ
deriving DecidableEq

/-- The JSON entry written for a tunable: keyed by name, with the
externally-scaled integer as `value`, the literal `0` as `min_value`,
and the declared `max` and `step`. -/
def jsonEntry (t : Tunable) : JsonEntry :=
  ⟨t.name, t.extValue, 0, t.max, t.step⟩

/-- The six lines that `outputTunableJSON` writes for one entry, token
for token as the C++ streams them. -/
def renderJsonEntry (e : JsonEntry) : List String :=
  ["   \"" ++ e.key ++ "\": \x7b",
   "      \"value\": " ++ toString e.value ++ ",",
   "      \"min_value\": " ++ "0" ++ ",",
   "      \"max_value\": " ++ toString e.max_value ++ ",",
   "      \"step\": " ++ toString e.step,
   "   \x7d,"]

/-- The entries of the JSON snapshot, in registry order. -/
def jsonEntries (ts : List Tunable) : List JsonEntry :=
  ts.map jsonEntry

/-- Operation `outputTunableJSON()`: the opening brace line, the six lines of each
entry in registry order, and the closing brace line. -/
def outputTunableJSON (ts : List Tunable) : List String :=
  "\x7b" :: ((jsonEntries ts).flatMap renderJsonEntry ++ ["\x7d"])

/-- The result of a call to `adjustTunable`: the registry after the
call, the diagnostic lines written to `std::cout`, and how many times
`calculateReductions` was invoked. -/
structure AdjustResult where
  registry : List Tunable
  output : List String
  recomputeCalls : ℕ
deriving DecidableEq

/-- Operation `adjustTunable(name, value)`: scan the registry in order; on the
first tunable whose name matches, call `updateValue` and, when the name
is `"LMR_Base"` or `"LMR_Multiplier"`, invoke `calculateReductions`,
then return; if the scan finds no match, print `"No Such Tunable"`. -/
def adjustTunable : List Tunable → String → ℤ → AdjustResult
  | [], _, _ => ⟨[], ["No Such Tunable"], 0⟩
  | t :: ts, name, v =>
    if t.name = name then
      ⟨t.updateValue v :: ts, [],
        if name = "LMR_Base" ∨ name = "LMR_Multiplier" then 1 else 0⟩
    else
      let r := adjustTunable ts name v
      ⟨t :: r.registry, r.output, r.recomputeCalls⟩

/-- What `readTunable` prints: `value q` stands for the line
`"value: "` followed by the rendering of the internal value `q`;
`noSuchTunable` stands for the line `"No Such Tunable"`. -/
inductive ReadOut where
  | value : ℚ → ReadOut
  | noSuchTunable : ReadOut
deriving DecidableEq

/-- Operation `readTunable(name)`: scan the registry in order; print the internal
`value` of the first tunable whose name matches, or `"No Such Tunable"`
if none does. -/
def readTunable : List Tunable → String → ReadOut
  | [], _ => .noSuchTunable
  | t :: ts, name =>
    if t.name = name then .value t.value else readTunable ts name

/-- The block of data that `readTunables` prints for one tunable:
`name`, internal `value`, the literal `0` as the minimum, declared
`max`, `divisor` and `step`. -/
structure ReadEntry where
  name : String
  value : ℚ
  minShown : ℤ
  max : ℤ
  divisor : ℚ
  step : ℤ
deriving DecidableEq

/-- The entry that `readTunables` prints for a tunable. -/
def readEntry (t : Tunable) : ReadEntry :=
  ⟨t.name, t.value, 0, t.max, t.divisor, t.step⟩

/-- Operation `readTunables()`: one full-metadata entry per tunable, in registry
order. -/
def readTunables (ts : List Tunable) : List ReadEntry :=
  ts.map readEntry

/-- Looking up the externally-scaled value of a named parameter: the
first name match in registry order, reported as
`static_cast<int>(value * divisor)` exactly as the reports compute it. -/
def externalValueOf : List Tunable → String → Option ℤ
  | [], _ => none
  | t :: ts, name =>
    if t.name = name then some t.extValue else externalValueOf ts name

/-- The all-zero metadata assignment, used to instantiate the registry
at concrete inputs. -/
def zfun : ℕ → ℤ := fun _ => 0

/-- The names of the registry, in source order. -/
def tunableNames : List String :=
  ["ASP_BaseDelta", "ASP_DeltaMultiplier", "ASP_DepthCondition",
   "RFP_DepthCondition", "RFP_Multiplier", "IIR_DepthCondition",
   "FP_DepthCondition", "FP_Base", "FP_Multiplier", "LMP_DepthCondition",
   "LMP_Base", "SPR_DepthCondition", "SPR_CaptureThreshold",
   "SPR_QuietThreshold", "NMP_Divisor", "NMP_Subtractor",
   "NMP_DepthCondition", "HMR_Divisor", "CMR_Divisor", "LMR_Base",
   "LMR_Multiplier", "HST_MaxBonus", "HST_Multiplier", "HST_Adder",
   "HST_Subtractor", "SIN_DepthCondition", "SIN_DepthMargin",
   "SIN_DepthScale", "RAZ_DepthMultiplier", "NTM_DepthCondition",
   "NTM_Subtractor", "NTM_Multiplier", "NTM_Default",
   "HIP_DepthCondition", "HIP_DepthMultiplier"]

lemma map_name_tunables (mx st : ℕ → ℤ) :
    (tunables mx st).map Tunable.name = tunableNames := rfl

lemma tunableNames_nodup : tunableNames.Nodup := by decide

lemma trunc_intCast (x : ℤ) : trunc ((x : ℚ)) = x := by
  simp [trunc]

lemma trunc_div_mul (x : ℤ) (d : ℚ) (hd : d ≠ 0) :
    trunc ((x : ℚ) / d * d) = x := by
  rw [div_mul_cancel₀ _ hd, trunc_intCast]

lemma tunables_divisor_ne_zero (mx st : ℕ → ℤ) :
    ∀ t ∈ tunables mx st, t.divisor ≠ 0 := by
  intro t ht
  fin_cases ht <;> norm_num [Tunable.construct]

lemma updateValue_name (t : Tunable) (v : ℤ) : (t.updateValue v).name = t.name := rfl

lemma adjustTunable_not_mem (ts : List Tunable) (name : String) (v : ℤ)
    (h : name ∉ ts.map Tunable.name) :
    adjustTunable ts name v = ⟨ts, ["No Such Tunable"], 0⟩ := by
  induction ts with
  | nil => rfl
  | cons t ts ih =>
    simp only [List.map_cons, List.mem_cons, not_or] at h
    obtain ⟨h1, h2⟩ := h
    simp only [adjustTunable, if_neg (fun hh : t.name = name => h1 hh.symm), ih h2]

lemma readTunable_not_mem (ts : List Tunable) (name : String)
    (h : name ∉ ts.map Tunable.name) :
    readTunable ts name = .noSuchTunable := by
  induction ts with
  | nil => rfl
  | cons t ts ih =>
    simp only [List.map_cons, List.mem_cons, not_or] at h
    obtain ⟨h1, h2⟩ := h
    simp only [readTunable, if_neg (fun hh : t.name = name => h1 hh.symm), ih h2]

lemma externalValueOf_adjustTunable (ts : List Tunable) (name : String) (x : ℤ)
    (hd : ∀ t ∈ ts, t.divisor ≠ 0) (h : name ∈ ts.map Tunable.name) :
    externalValueOf (adjustTunable ts name x).registry name = some x := by
  induction ts with
  | nil => simp at h
  | cons t ts ih =>
    by_cases he : t.name = name
    · simp only [adjustTunable, if_pos he]
      simp only [externalValueOf, updateValue_name, if_pos he]
      have hdt : t.divisor ≠ 0 := hd t (List.mem_cons_self t ts)
      simp only [Tunable.extValue, Tunable.updateValue, trunc_div_mul x t.divisor hdt]
    · have h2 : name ∈ ts.map Tunable.name := by
        rcases (List.mem_cons.mp h) with h0 | h0
        · exact absurd h0.symm he
        · exact h0
      have hd2 : ∀ u ∈ ts, u.divisor ≠ 0 := fun u hu => hd u (List.mem_cons_of_mem t hu)
      simp only [adjustTunable, if_neg he]
      simp only [externalValueOf, if_neg he]
      exact ih hd2 h2

lemma adjustTunable_recomputeCalls (ts : List Tunable) (name : String) (v : ℤ)
    (h : name ∈ ts.map Tunable.name) :
    (adjustTunable ts name v).recomputeCalls =
      if name = "LMR_Base" ∨ name = "LMR_Multiplier" then 1 else 0 := by
  induction ts with
  | nil => simp at h
  | cons t ts ih =>
    by_cases he : t.name = name
    · simp only [adjustTunable, if_pos he]
    · have h2 : name ∈ ts.map Tunable.name := by
        rcases (List.mem_cons.mp h) with h0 | h0
        · exact absurd h0.symm he
        · exact h0
      simp only [adjustTunable, if_neg he]
      exact ih h2

lemma adjustTunable_output_mem (ts : List Tunable) (name : String) (v : ℤ)
    (h : name ∈ ts.map Tunable.name) :
    (adjustTunable ts name v).output = [] := by
  induction ts with
  | nil => simp at h
  | cons t ts ih =>
    by_cases he : t.name = name
    · simp only [adjustTunable, if_pos he]
    · have h2 : name ∈ ts.map Tunable.name := by
        rcases (List.mem_cons.mp h) with h0 | h0
        · exact absurd h0.symm he
        · exact h0
      simp only [adjustTunable, if_neg he]
      exact ih h2

lemma readTunable_mem (ts : List Tunable) (t : Tunable)
    (hnd : (ts.map Tunable.name).Nodup) (ht : t ∈ ts) :
    readTunable ts t.name = .value t.value := by
  induction ts with
  | nil => simp at ht
  | cons u ts ih =>
    rcases List.mem_cons.mp ht with h0 | h0
    · subst h0
      simp [readTunable]
    · have hne : u.name ≠ t.name := by
        intro hEq
        have : u.name ∈ ts.map Tunable.name := hEq ▸ List.mem_map_of_mem Tunable.name h0
        exact (List.nodup_cons.mp hnd).1 this
      simp only [readTunable, if_neg hne]
      exact ih (List.nodup_cons.mp hnd).2 h0

lemma adjustTunable_get? (ts : List Tunable) (name : String) (v : ℤ) (i : ℕ) :
    (((adjustTunable ts name v).registry.get? i).map Tunable.name
        = (ts.get? i).map Tunable.name) ∧
    (((adjustTunable ts name v).registry.get? i).map Tunable.divisor
        = (ts.get? i).map Tunable.divisor) ∧
    (((adjustTunable ts name v).registry.get? i).map Tunable.max
        = (ts.get? i).map Tunable.max) ∧
    (((adjustTunable ts name v).registry.get? i).map Tunable.step
        = (ts.get? i).map Tunable.step) ∧
    (∀ t, ts.get? i = some t → t.name ≠ name →
        (adjustTunable ts name v).registry.get? i = some t) := by
  induction ts generalizing i with
  | nil => simp [adjustTunable]
  | cons t ts ih =>
    by_cases he : t.name = name
    · simp only [adjustTunable, if_pos he]
      cases i with
      | zero =>
        refine ⟨rfl, rfl, rfl, rfl, ?_⟩
        intro u hu hne
        have hut : t = u := by simpa using hu
        subst hut
        exact absurd he hne
      | succ i => exact ⟨rfl, rfl, rfl, rfl, fun u hu _ => hu⟩
    · simp only [adjustTunable, if_neg he]
      cases i with
      | zero => exact ⟨rfl, rfl, rfl, rfl, fun u hu _ => hu⟩
      | succ i =>
        simpa using ih i

example : externalValueOf (tunables zfun zfun) "RFP_Multiplier" = some 84 := by
  simp [externalValueOf, tunables, Tunable.construct, Tunable.extValue]
  all_goals norm_num [trunc]
example : readTunable (tunables zfun zfun) "LMR_Base" = .value 0.8 := by
  simp [readTunable, tunables, Tunable.construct]
  all_goals norm_num
example : (adjustTunable (tunables zfun zfun) "LMR_Base" 95).recomputeCalls = 1 := by
  simp [adjustTunable, tunables, Tunable.construct]
example : (adjustTunable (tunables zfun zfun) "LMR_Base" 95).output = [] := by
  simp [adjustTunable, tunables, Tunable.construct]
example : externalValueOf (adjustTunable (tunables zfun zfun) "LMR_Base" 95).registry "LMR_Base" = some 95 := by
  simp [externalValueOf, adjustTunable, tunables, Tunable.construct, Tunable.extValue,
    Tunable.updateValue]
  all_goals norm_num [trunc]
example : externalValueOf (tunables zfun zfun) "SPR_CaptureThreshold" = some 108 := by
  simp [externalValueOf, tunables, Tunable.construct, Tunable.extValue]
  all_goals norm_num [trunc]

lemma append_min0max (X Y : String) :
    X ++ " min " ++ "0" ++ " max " ++ Y = X ++ " min 0 max " ++ Y := by
  simp only [String.append_assoc]
  congr 1

lemma outputTunables_eq_render (ts : List Tunable) :
    outputTunables ts = (optionEntries ts).map renderOptionEntry := by
  rw [outputTunables, optionEntries, List.map_map]
  rfl

lemma optionEntries_names (ts : List Tunable) :
    (optionEntries ts).map OptionEntry.name = ts.map Tunable.name := by
  rw [optionEntries, List.map_map]
  rfl

lemma jsonEntries_keys (ts : List Tunable) :
    (jsonEntries ts).map JsonEntry.key = ts.map Tunable.name := by
  rw [jsonEntries, List.map_map]
  rfl

lemma readTunables_names (ts : List Tunable) :
    (readTunables ts).map ReadEntry.name = ts.map Tunable.name := by
  rw [readTunables, List.map_map]
  rfl

/-- Claim C1: for every parameter present in the registry and every
integer `x` (in the rational model of the C++ doubles no rounding loss
occurs, so every integer is representable at the parameter's divisor
precision), performing `adjustTunable name x` and then reading the
externally-scaled value `trunc (value * divisor)` of that parameter
yields exactly `x` back. -/
theorem claim_C1 (mx st : ℕ → ℤ) (name : String) (x : ℤ)
    (h : name ∈ (tunables mx st).map Tunable.name) :
    externalValueOf (adjustTunable (tunables mx st) name x).registry name = some x :=
  externalValueOf_adjustTunable _ name x (tunables_divisor_ne_zero mx st) h

theorem claim_C1_witness :
    "LMR_Base" ∈ (tunables zfun zfun).map Tunable.name ∧
    externalValueOf (adjustTunable (tunables zfun zfun) "LMR_Base" 95).registry "LMR_Base"
      = some 95 :=
  ⟨by decide, claim_C1 zfun zfun "LMR_Base" 95 (by decide)⟩

/-- Claim C2: for every name not present in the registry,
`adjustTunable name v` and `readTunable name` each print the diagnostic
`"No Such Tunable"`, leave every parameter unchanged, never invoke the
recomputation collaborator, and (being total functions) return
normally. -/
theorem claim_C2 (mx st : ℕ → ℤ) (name : String) (v : ℤ)
    (h : name ∉ (tunables mx st).map Tunable.name) :
    (adjustTunable (tunables mx st) name v).registry = tunables mx st ∧
    (adjustTunable (tunables mx st) name v).output = ["No Such Tunable"] ∧
    (adjustTunable (tunables mx st) name v).recomputeCalls = 0 ∧
    readTunable (tunables mx st) name = .noSuchTunable := by
  have ha := adjustTunable_not_mem (tunables mx st) name v h
  exact ⟨by rw [ha], by rw [ha], by rw [ha], readTunable_not_mem _ name h⟩

theorem claim_C2_witness :
    "NOT_A_REAL_NAME" ∉ (tunables zfun zfun).map Tunable.name ∧
    ((adjustTunable (tunables zfun zfun) "NOT_A_REAL_NAME" 5).registry = tunables zfun zfun ∧
     (adjustTunable (tunables zfun zfun) "NOT_A_REAL_NAME" 5).output = ["No Such Tunable"] ∧
     (adjustTunable (tunables zfun zfun) "NOT_A_REAL_NAME" 5).recomputeCalls = 0 ∧
     readTunable (tunables zfun zfun) "NOT_A_REAL_NAME" = .noSuchTunable) :=
  ⟨by decide, claim_C2 zfun zfun "NOT_A_REAL_NAME" 5 (by decide)⟩

/-- Claim C3: for every successful update, if the updated name is
`"LMR_Base"` or `"LMR_Multiplier"` then `calculateReductions` is
invoked exactly once before the call returns, and if the updated name
is any other registry parameter it is never invoked. -/
theorem claim_C3 (mx st : ℕ → ℤ) (name : String) (v : ℤ)
    (h : name ∈ (tunables mx st).map Tunable.name) :
    ((name = "LMR_Base" ∨ name = "LMR_Multiplier") →
        (adjustTunable (tunables mx st) name v).recomputeCalls = 1) ∧
    (¬(name = "LMR_Base" ∨ name = "LMR_Multiplier") →
        (adjustTunable (tunables mx st) name v).recomputeCalls = 0) := by
  have hr := adjustTunable_recomputeCalls (tunables mx st) name v h
  constructor
  · intro hd
    rw [hr, if_pos hd]
  · intro hd
    rw [hr, if_neg hd]

theorem claim_C3_witness :
    "LMR_Base" ∈ (tunables zfun zfun).map Tunable.name ∧
    (adjustTunable (tunables zfun zfun) "LMR_Base" 95).recomputeCalls = 1 :=
  ⟨by decide, (claim_C3 zfun zfun "LMR_Base" 95 (by decide)).1 (Or.inl rfl)⟩

/-- Claim C4: `outputTunables` produces, for each parameter in registry
order, exactly the line
`option name <NAME> type spin default <EXTERNAL_INT> min 0 max <MAX>`
with `<EXTERNAL_INT> = trunc (value * divisor)`; in particular the line
for `RFP_Multiplier` (default `84`, divisor `1`) has default field
`84`. -/
theorem claim_C4 (mx st : ℕ → ℤ) :
    outputTunables (tunables mx st) = (tunables mx st).map (fun t =>
      "option name " ++ t.name ++ " type spin default "
        ++ toString (trunc (t.value * t.divisor)) ++ " min 0 max " ++ toString t.max) ∧
    (outputTunables (tunables mx st)).get? 4 =
      some ("option name RFP_Multiplier type spin default 84 min 0 max "
        ++ toString (mx 4)) := by
  constructor
  · refine List.map_congr_left ?_
    intro t _
    exact append_min0max _ _
  · rw [outputTunables, List.get?_map]
    have h4 : (tunables mx st).get? 4
        = some (Tunable.construct "RFP_Multiplier" 84 1 (mx 4) (st 4)) := rfl
    have hev : (Tunable.construct "RFP_Multiplier" 84 1 (mx 4) (st 4)).extValue = 84 := by
      norm_num [Tunable.extValue, Tunable.construct, trunc]
    rw [h4, Option.map_some', optionLine, hev, append_min0max]
    congr 2

/-- Claim C5: `outputTunableJSON` produces a single object keyed by
parameter name, in registry order, where each entry carries, in this
order, `value` equal to `trunc (value * divisor)`, `min_value` equal to
`0`, `max_value` equal to the declared max, and `step` equal to the
declared step. -/
theorem claim_C5 (mx st : ℕ → ℤ) :
    outputTunableJSON (tunables mx st) =
      "\x7b" :: (((tunables mx st).flatMap fun t =>
        ["   \"" ++ t.name ++ "\": \x7b",
         "      \"value\": " ++ toString (trunc (t.value * t.divisor)) ++ ",",
         "      \"min_value\": 0,",
         "      \"max_value\": " ++ toString t.max ++ ",",
         "      \"step\": " ++ toString t.step,
         "   \x7d,"]) ++ ["\x7d"]) := by
  simp only [outputTunableJSON, jsonEntries, List.flatMap, List.map_map]
  congr 2

/-- Claim C6: for every parameter name present at registry
construction, each of the three reports (the option lines, `readAll`,
and the JSON snapshot) contains exactly one entry for that name, and
the relative order of entries is the registry order in all three
outputs. -/
theorem claim_C6 (mx st : ℕ → ℤ) (name : String)
    (h : name ∈ (tunables mx st).map Tunable.name) :
    outputTunables (tunables mx st) = (optionEntries (tunables mx st)).map renderOptionEntry ∧
    ((optionEntries (tunables mx st)).map OptionEntry.name).count name = 1 ∧
    ((jsonEntries (tunables mx st)).map JsonEntry.key).count name = 1 ∧
    ((readTunables (tunables mx st)).map ReadEntry.name).count name = 1 ∧
    (optionEntries (tunables mx st)).map OptionEntry.name
      = (tunables mx st).map Tunable.name ∧
    (jsonEntries (tunables mx st)).map JsonEntry.key
      = (tunables mx st).map Tunable.name ∧
    (readTunables (tunables mx st)).map ReadEntry.name
      = (tunables mx st).map Tunable.name := by
  have hmem : name ∈ tunableNames := by rwa [map_name_tunables] at h
  have hcount : tunableNames.count name = 1 :=
    List.count_eq_one_of_mem tunableNames_nodup hmem
  refine ⟨outputTunables_eq_render _, ?_, ?_, ?_, ?_, ?_, ?_⟩
  · rw [optionEntries_names, map_name_tunables]
    exact hcount
  · rw [jsonEntries_keys, map_name_tunables]
    exact hcount
  · rw [readTunables_names, map_name_tunables]
    exact hcount
  · rw [optionEntries_names]
  · rw [jsonEntries_keys]
  · rw [readTunables_names]

theorem claim_C6_witness :
    "LMR_Base" ∈ (tunables zfun zfun).map Tunable.name ∧
    ((optionEntries (tunables zfun zfun)).map OptionEntry.name).count "LMR_Base" = 1 ∧
    ((jsonEntries (tunables zfun zfun)).map JsonEntry.key).count "LMR_Base" = 1 ∧
    ((readTunables (tunables zfun zfun)).map ReadEntry.name).count "LMR_Base" = 1 :=
  ⟨by decide,
   (claim_C6 zfun zfun "LMR_Base" (by decide)).2.1,
   (claim_C6 zfun zfun "LMR_Base" (by decide)).2.2.1,
   (claim_C6 zfun zfun "LMR_Base" (by decide)).2.2.2.1⟩

/-- Claim C7: for every parameter in the registry, `readTunable` on its
name reports the parameter's current internal unscaled `value` (not the
externally-scaled integer). -/
theorem claim_C7 (mx st : ℕ → ℤ) (t : Tunable) (ht : t ∈ tunables mx st) :
    readTunable (tunables mx st) t.name = .value t.value :=
  readTunable_mem _ t (by rw [map_name_tunables]; exact tunableNames_nodup) ht

theorem claim_C7_witness :
    Tunable.construct "LMR_Base" 0.80 100 (zfun 19) (zfun 19) ∈ tunables zfun zfun ∧
    readTunable (tunables zfun zfun)
        (Tunable.construct "LMR_Base" 0.80 100 (zfun 19) (zfun 19)).name
      = .value (Tunable.construct "LMR_Base" 0.80 100 (zfun 19) (zfun 19)).value :=
  ⟨List.get?_mem (rfl : (tunables zfun zfun).get? 19 = _),
   claim_C7 zfun zfun _ (List.get?_mem (rfl : (tunables zfun zfun).get? 19 = _))⟩

/-- Claim C8 fails as stated: the divisor of `SPR_CaptureThreshold`
(and of `SPR_QuietThreshold` and `HIP_DepthMultiplier`) is `-1`, which
is not positive. -/
theorem claim_C8_counterexample :
    ¬ ∀ t ∈ tunables zfun zfun, 0 < t.divisor := by
  intro hall
  have hmem : Tunable.construct "SPR_CaptureThreshold" (-108) (-1) (zfun 12) (zfun 12)
      ∈ tunables zfun zfun :=
    List.get?_mem (rfl : (tunables zfun zfun).get? 12 = _)
  have := hall _ hmem
  norm_num [Tunable.construct] at this

/-- Claim C8 (amended): for every parameter in the registry, the
divisor is nonzero (though not always positive), so dividing or
multiplying by it is always well-defined. -/
theorem claim_C8_amended (mx st : ℕ → ℤ) (t : Tunable) (ht : t ∈ tunables mx st) :
    t.divisor ≠ 0 :=
  tunables_divisor_ne_zero mx st t ht

theorem claim_C8_amended_witness :
    Tunable.construct "ASP_BaseDelta" 20 1 (zfun 0) (zfun 0) ∈ tunables zfun zfun ∧
    (Tunable.construct "ASP_BaseDelta" 20 1 (zfun 0) (zfun 0)).divisor ≠ 0 :=
  ⟨List.get?_mem (rfl : (tunables zfun zfun).get? 0 = _),
   claim_C8_amended zfun zfun _ (List.get?_mem (rfl : (tunables zfun zfun).get? 0 = _))⟩

/-- Claim C9 fails as stated: a successful update writes nothing to the
output sink; updating the present parameter `LMR_Base` produces no
diagnostic at all. -/
theorem claim_C9_counterexample :
    "LMR_Base" ∈ (tunables zfun zfun).map Tunable.name ∧
    (adjustTunable (tunables zfun zfun) "LMR_Base" 95).output = [] :=
  ⟨by decide, adjustTunable_output_mem _ "LMR_Base" 95 (by decide)⟩

/-- Claim C9 (amended): a successful update writes no diagnostic to the
output sink; only a failed update writes one, namely
`"No Such Tunable"`. -/
theorem claim_C9_amended (mx st : ℕ → ℤ) (name : String) (v : ℤ) :
    (name ∈ (tunables mx st).map Tunable.name →
        (adjustTunable (tunables mx st) name v).output = []) ∧
    (name ∉ (tunables mx st).map Tunable.name →
        (adjustTunable (tunables mx st) name v).output = ["No Such Tunable"]) :=
  ⟨fun h => adjustTunable_output_mem _ name v h,
   fun h => by rw [adjustTunable_not_mem _ name v h]⟩

theorem claim_C9_amended_witness :
    "LMR_Base" ∈ (tunables zfun zfun).map Tunable.name ∧
    (adjustTunable (tunables zfun zfun) "LMR_Base" 95).output = [] :=
  ⟨by decide, (claim_C9_amended zfun zfun "LMR_Base" 95).1 (by decide)⟩

/-- Claim C10: a successful update changes only the matched parameter's
`value` field: at every registry position the `name`, `divisor`, `max`
and `step` are unchanged, and every position holding a parameter whose
name is not the updated name is entirely unchanged. -/
theorem claim_C10 (mx st : ℕ → ℤ) (name : String) (v : ℤ) (i : ℕ)
    (h : name ∈ (tunables mx st).map Tunable.name) :
    (((adjustTunable (tunables mx st) name v).registry.get? i).map Tunable.name
        = ((tunables mx st).get? i).map Tunable.name) ∧
    (((adjustTunable (tunables mx st) name v).registry.get? i).map Tunable.divisor
        = ((tunables mx st).get? i).map Tunable.divisor) ∧
    (((adjustTunable (tunables mx st) name v).registry.get? i).map Tunable.max
        = ((tunables mx st).get? i).map Tunable.max) ∧
    (((adjustTunable (tunables mx st) name v).registry.get? i).map Tunable.step
        = ((tunables mx st).get? i).map Tunable.step) ∧
    (∀ t, (tunables mx st).get? i = some t → t.name ≠ name →
        (adjustTunable (tunables mx st) name v).registry.get? i = some t) :=
  adjustTunable_get? (tunables mx st) name v i

theorem claim_C10_witness :
    "LMR_Base" ∈ (tunables zfun zfun).map Tunable.name ∧
    (((adjustTunable (tunables zfun zfun) "LMR_Base" 95).registry.get? 0).map Tunable.name
        = ((tunables zfun zfun).get? 0).map Tunable.name) ∧
    (adjustTunable (tunables zfun zfun) "LMR_Base" 95).registry.get? 0
        = some (Tunable.construct "ASP_BaseDelta" 20 1 (zfun 0) (zfun 0)) :=
  ⟨by decide,
   (claim_C10 zfun zfun "LMR_Base" 95 0 (by decide)).1,
   (claim_C10 zfun zfun "LMR_Base" 95 0 (by decide)).2.2.2.2
     (Tunable.construct "ASP_BaseDelta" 20 1 (zfun 0) (zfun 0)) rfl (by decide)⟩

end Clarity
